import Mathlib

/-
Verification development for the AWS cost-estimation script
(src/aws/cs-aws-cost-estimation.py).

The script is shallowly embedded below. Remote calls (STS role assumption,
CloudWatch metric queries, EC2/S3/IAM listings) are modelled by oracle
environments: an Option value whose none constructor stands for the call
raising an exception, and whose payload is the data the call returned.
Python floats are modelled as exact rationals, Python ints as integers.
-/

/- String helpers: Python str.lower, str.startswith and the "in" operator,
   modelled over lists of characters. -/

def lowerStr (s : List Char) : List Char := s.map Char.toLower

def startsWithL : List Char → List Char → Bool
  | _, [] => true
  | [], _ :: _ => false
  | c :: cs, p :: ps => c == p && startsWithL cs ps

def containsSub : List Char → List Char → Bool
  | [], needle => startsWithL [] needle
  | c :: t, needle => startsWithL (c :: t) needle || containsSub t needle

/- Literal constants of the script. -/

def saChars : List Char := ['s', 'a', '-']

def apChars : List Char := ['a', 'p', '-']

def meChars : List Char := ['m', 'e', '-']

def usEast1Chars : List Char := ['u', 's', '-', 'e', 'a', 's', 't', '-', '1']

def windowsChars : List Char := ['w', 'i', 'n', 'd', 'o', 'w', 's']

def linuxKeywords : List (List Char) :=
  [['l', 'i', 'n', 'u', 'x'], ['u', 'b', 'u', 'n', 't', 'u'],
   ['c', 'e', 'n', 't', 'o', 's'], ['r', 'h', 'e', 'l'],
   ['a', 'm', 'a', 'z', 'o', 'n'], ['d', 'e', 'b', 'i', 'a', 'n']]

def notOptedIn : String := "not-opted-in"

def primaryRoleName : String := "OrganizationAccountAccessRole"

def controlTowerRoleName : String := "AWSControlTowerExecution"

def orgAccessRoleName : String := "OrganizationAccountAccess"

def statusActive : String := "ACTIVE"

/- Presentation-time numeric conversions: Python round(x, 2) rounds half to
   even, Python int(x) truncates toward zero. Both are applied only when a
   result row is rendered. -/

def roundHalfEven (y : ℚ) : ℤ :=
  let n := ⌊y⌋
  let f := y - (n : ℚ)
  if f < 1 / 2 then n
  else if 1 / 2 < f then n + 1
  else if Even n then n else n + 1

def round2 (x : ℚ) : ℚ := ((roundHalfEven (x * 100) : ℚ)) / 100

def pyInt (x : ℚ) : ℤ := if x < 0 then ⌈x⌉ else ⌊x⌋

/- Credential broker (method _get_account_session). A session is the root
   session or one obtained by assuming a named role in a target account.
   The StsEnv oracle records, for each role name and account, whether the
   assume-role call succeeds. -/

inductive Session where
  | root : Session
  | assumed : String → String → Session
deriving DecidableEq

structure StsEnv where
  rootAccount : String
  assumeRole : String → String → Bool

def get_account_session (sts : StsEnv) (accountId : String) : Option Session :=
  if accountId = sts.rootAccount then some Session.root
  else if sts.assumeRole primaryRoleName accountId = true then
    some (Session.assumed primaryRoleName accountId)
  else if sts.assumeRole controlTowerRoleName accountId = true then
    some (Session.assumed controlTowerRoleName accountId)
  else if sts.assumeRole orgAccessRoleName accountId = true then
    some (Session.assumed orgAccessRoleName accountId)
  else none

/- Scope resolver (method get_enabled_regions_for_account). The oracle holds
   the outcome of the single describe-regions call (none when it raises, the
   returned entries otherwise) and the per-region probe outcome. -/

structure RegionCatalogEntry where
  regionName : List Char
  optInStatus : Option String
deriving DecidableEq

structure ScopeEnv where
  describeAllRegions : Option (List RegionCatalogEntry)
  probeOk : List Char → Bool

structure Config where
  include_all_regions : Bool
  include_dspm : Bool
  include_snapshot : Bool
  regions : List (List Char)
  all_available_regions : List (List Char)

def get_enabled_regions_for_account (cfg : Config) (sts : StsEnv)
    (accountId : String) (env : ScopeEnv) : List (List Char) :=
  match get_account_session sts accountId with
  | none => cfg.regions
  | some _ =>
    match env.describeAllRegions with
    | some entries =>
      (entries.filter (fun e => decide (e.optInStatus ≠ some notOptedIn))).map
        (fun e => e.regionName)
    | none =>
      let enabled := cfg.all_available_regions.filter env.probeOk
      if enabled = [] then cfg.regions else enabled

/- Metric queries return a list of datapoint values, or raise. -/

inductive MetricResult where
  | raises : MetricResult
  | returns : List ℚ → MetricResult
deriving DecidableEq

/- Event-volume waterfall (method estimate_cloudtrail_events). The oracle
   holds the trail-event metric outcome, the API call-count metric outcome,
   and the outcome of the tier-3 resource counting (instances, users, roles;
   none when any of the three listing calls raises). -/

structure EventsEnv where
  trailEvents : MetricResult
  apiCallCount : MetricResult
  resourceCounts : Option (ℕ × ℕ × ℕ)
deriving DecidableEq

def eventsTier3 (env : EventsEnv) : ℚ :=
  match env.resourceCounts with
  | some c => ((max ((c.1 + c.2.1 + c.2.2) * 5000) 100000 : ℕ) : ℚ)
  | none => 1000000

def estimate_cloudtrail_events (sts : StsEnv) (accountId : String)
    (env : EventsEnv) : ℚ :=
  match get_account_session sts accountId with
  | none => 1000000
  | some _ =>
    match env.trailEvents with
    | MetricResult.raises => 1000000
    | MetricResult.returns dps =>
      if dps ≠ [] then
        dps.sum / (if dps.length > 0 then (dps.length : ℚ) else 1) * 30
      else
        match env.apiCallCount with
        | MetricResult.returns dps2 =>
          if dps2 ≠ [] then
            dps2.sum / (if dps2.length > 0 then (dps2.length : ℚ) else 1) * 30
              * 0.15
          else eventsTier3 env
        | MetricResult.raises => eventsTier3 env

/- Egress-volume waterfall (method estimate_data_transfer). Tier 2 re-runs
   the event waterfall with its own metric outcomes. -/

structure EgressEnv where
  bytesDelivered : MetricResult
  eventsEnv : EventsEnv
deriving DecidableEq

def estimate_data_transfer (sts : StsEnv) (accountId : String)
    (env : EgressEnv) : ℚ :=
  match get_account_session sts accountId with
  | none => 5
  | some _ =>
    match env.bytesDelivered with
    | MetricResult.raises => 5
    | MetricResult.returns dps =>
      if dps ≠ [] then
        (dps.sum / (if dps.length > 0 then (dps.length : ℚ) else 1) * 30)
          / (1024 * 1024 * 1024)
      else
        (estimate_cloudtrail_events sts accountId env.eventsEnv * 1.5 * 1024)
          / (1024 * 1024 * 1024)

/- Storage inventory (method estimate_s3_buckets). Each bucket carries the
   outcome of its location lookup (outer none: the lookup raised; inner none:
   the provider reported a null location, read as us-east-1) and of its size
   metric query (none: the query raised; otherwise the datapoint averages). -/

structure Bucket where
  name : String
  locationResult : Option (Option (List Char))
  sizeMetricResult : Option (List ℚ)
deriving DecidableEq

structure S3Env where
  bucketsResult : Option (List Bucket)
deriving DecidableEq

structure StorageInv where
  count : ℤ
  total_size_gb : ℚ
  avg_size_gb : ℚ
deriving DecidableEq

def estimate_s3_buckets (include_dspm : Bool) (sts : StsEnv)
    (accountId : String) (region : List Char) (env : S3Env) : StorageInv :=
  if include_dspm = false then ⟨0, 0, 0⟩
  else
    match get_account_session sts accountId with
    | none => ⟨10, 500, 50⟩
    | some _ =>
      match env.bucketsResult with
      | none => ⟨10, 500, 50⟩
      | some buckets =>
        let regional := buckets.filter (fun b =>
          match b.locationResult with
          | none => false
          | some loc => decide (loc.getD usEast1Chars = region))
        let bucket_count : ℤ := regional.length
        let sizes := regional.filterMap (fun b =>
          match b.sizeMetricResult with
          | none => none
          | some [] => none
          | some (d :: _) => some (d / (1024 * 1024 * 1024)))
        if sizes.length > 0 then
          let avg_size_gb := sizes.sum / (sizes.length : ℚ)
          ⟨bucket_count, round2 (avg_size_gb * (bucket_count : ℚ)),
           round2 avg_size_gb⟩
        else
          ⟨bucket_count, round2 (50 * (bucket_count : ℚ)), round2 50⟩

/- Compute inventory (method estimate_ec2_instances). An instance carries its
   platform field and the outcome of the image lookup used when the platform
   field is inconclusive (outer none: describe-images raised; inner none: no
   image record; otherwise the description and platform of the first image). -/

inductive OsKind where
  | linux : OsKind
  | windows : OsKind
deriving DecidableEq

structure Ec2Instance where
  platform : List Char
  imageQuery : Option (Option (List Char × List Char))
deriving DecidableEq

structure Ec2Env where
  instancesResult : Option (List Ec2Instance)
deriving DecidableEq

structure Inventory where
  total : ℤ
  linux : ℤ
  windows : ℤ
  other : ℤ
deriving DecidableEq

def classifyInstance (inst : Ec2Instance) : OsKind :=
  if inst.platform ≠ [] ∧ containsSub (lowerStr inst.platform) windowsChars then
    OsKind.windows
  else
    match inst.imageQuery with
    | none => OsKind.linux
    | some img =>
      let description : List Char :=
        match img with
        | some dp => lowerStr dp.1
        | none => []
      let plat : List Char :=
        match img with
        | some dp => lowerStr dp.2
        | none => inst.platform
      if containsSub description windowsChars = true ∨ plat = windowsChars then
        OsKind.windows
      else if linuxKeywords.any (fun k => containsSub description k) then
        OsKind.linux
      else OsKind.linux

def estimate_ec2_instances (include_snapshot : Bool) (sts : StsEnv)
    (accountId : String) (env : Ec2Env) : Inventory :=
  if include_snapshot = false then ⟨0, 0, 0, 0⟩
  else
    match get_account_session sts accountId with
    | none => ⟨20, 14, 5, 1⟩
    | some _ =>
      match env.instancesResult with
      | none => ⟨20, 14, 5, 1⟩
      | some insts =>
        let total : ℤ := insts.length
        let linux : ℤ :=
          insts.countP (fun i => decide (classifyInstance i = OsKind.linux))
        let windows : ℤ :=
          insts.countP (fun i => decide (classifyInstance i = OsKind.windows))
        ⟨total, linux, windows, total - linux - windows⟩

/- Cost model (the pricing section of method calculate_costs). -/

structure UsageMetrics where
  monthly_events : ℚ
  monthly_egress_gb : ℚ
  s3_count : ℤ
  s3_total_size_gb : ℚ
  ec2_total : ℤ
  ec2_linux : ℤ
deriving DecidableEq

def eventbridge_cost (m : UsageMetrics) : ℚ := m.monthly_events / 1000000 * 1

def egress_rate (region : List Char) : ℚ :=
  if startsWithL region apChars || startsWithL region meChars then 0.11
  else if startsWithL region saChars then 0.12
  else 0.09

def data_egress_cost (region : List Char) (m : UsageMetrics) : ℚ :=
  m.monthly_egress_gb * egress_rate region

def lambda_cost : ℚ := 0.10

def cloudtrail_cost : ℚ := 0

def dspm_cost (cfg : Config) (m : UsageMetrics) : ℚ :=
  if cfg.include_dspm = true ∧ 0 < m.s3_count then
    24 * 0.34 * 1 + m.s3_total_size_gb * 0.045 * 1 + 0.045 * 24 * 1
  else 0

def snapshot_cost (cfg : Config) (m : UsageMetrics) : ℚ :=
  if cfg.include_snapshot = true ∧ 0 < m.ec2_linux then
    (m.ec2_linux : ℚ) * 0.5 * 0.085 * 4
      + (m.ec2_linux : ℚ) * 100 * 0.05 * (1 / 30)
  else 0

def total_cost (cfg : Config) (region : List Char) (m : UsageMetrics) : ℚ :=
  eventbridge_cost m + data_egress_cost region m + lambda_cost
    + cloudtrail_cost + dspm_cost cfg m + snapshot_cost cfg m

/- Result rows: the dictionary appended to self.results, with the rounding
   applied at that point. -/

structure AccountRec where
  id : String
  name : String
  status : String
deriving DecidableEq

structure ResultRow where
  accountId : String
  accountName : String
  region : List Char
  monthlyEvents : ℤ
  monthlyEgressGb : ℚ
  s3Count : ℤ
  s3StorageGb : ℚ
  ec2Total : ℤ
  linuxCount : ℤ
  eventbridgeCost : ℚ
  dataEgressCost : ℚ
  lambdaCost : ℚ
  cloudtrailCost : ℚ
  dspmCost : ℚ
  snapshotCost : ℚ
  totalCost : ℚ
deriving DecidableEq

def mkResultRow (cfg : Config) (acct : AccountRec) (region : List Char)
    (m : UsageMetrics) : ResultRow :=
  { accountId := acct.id
    accountName := acct.name
    region := region
    monthlyEvents := pyInt m.monthly_events
    monthlyEgressGb := round2 m.monthly_egress_gb
    s3Count := m.s3_count
    s3StorageGb := round2 m.s3_total_size_gb
    ec2Total := m.ec2_total
    linuxCount := m.ec2_linux
    eventbridgeCost := round2 (eventbridge_cost m)
    dataEgressCost := round2 (data_egress_cost region m)
    lambdaCost := round2 lambda_cost
    cloudtrailCost := round2 cloudtrail_cost
    dspmCost := round2 (dspm_cost cfg m)
    snapshotCost := round2 (snapshot_cost cfg m)
    totalCost := round2 (total_cost cfg region m) }

/- Per-region oracle bundle and per-account orchestration
   (method calculate_costs, method run). -/

structure RegionEnv where
  events : EventsEnv
  egress : EgressEnv
  s3 : S3Env
  ec2 : Ec2Env

structure AccountEnv where
  scope : ScopeEnv
  perRegion : List Char → RegionEnv

def gatherMetrics (cfg : Config) (sts : StsEnv) (accountId : String)
    (region : List Char) (renv : RegionEnv) : UsageMetrics :=
  let monthly_events := estimate_cloudtrail_events sts accountId renv.events
  let monthly_egress_gb := estimate_data_transfer sts accountId renv.egress
  let s3_data :=
    if cfg.include_dspm then
      estimate_s3_buckets cfg.include_dspm sts accountId region renv.s3
    else ⟨0, 0, 0⟩
  let ec2_data :=
    if cfg.include_snapshot then
      estimate_ec2_instances cfg.include_snapshot sts accountId renv.ec2
    else ⟨0, 0, 0, 0⟩
  ⟨monthly_events, monthly_egress_gb, s3_data.count, s3_data.total_size_gb,
   ec2_data.total, ec2_data.linux⟩

def processRegion (cfg : Config) (sts : StsEnv) (acct : AccountRec)
    (region : List Char) (renv : RegionEnv) : ResultRow :=
  mkResultRow cfg acct region (gatherMetrics cfg sts acct.id region renv)

def resolvedRegions (cfg : Config) (sts : StsEnv) (acct : AccountRec)
    (aenv : AccountEnv) : List (List Char) :=
  if cfg.include_all_regions then
    get_enabled_regions_for_account cfg sts acct.id aenv.scope
  else cfg.regions

def calculate_costs (cfg : Config) (sts : StsEnv) (acct : AccountRec)
    (aenv : AccountEnv) : List ResultRow :=
  (resolvedRegions cfg sts acct aenv).map
    (fun r => processRegion cfg sts acct r (aenv.perRegion r))

/- The run method appends rows from concurrent per-account workers under a
   lock; only the multiset of appended rows matters to the claims below, so
   the concurrent interleaving is modelled as a deterministic concatenation. -/

def runEstimator (cfg : Config) (sts : StsEnv) (accts : List AccountRec)
    (env : AccountRec → AccountEnv) : List ResultRow :=
  accts.flatMap (fun a => calculate_costs cfg sts a (env a))

def activeAccounts (l : List AccountRec) : List AccountRec :=
  l.filter (fun a => decide (a.status = statusActive))

def rowKey (aId : String) (r : List Char) : ResultRow → Bool :=
  fun row => decide (row.accountId = aId ∧ row.region = r)

/- Spec-side formulas, written from the words of the specification, to be
   compared with the embedded code. claimTierFormula is the event-volume
   waterfall exactly as the specification states it: the first tier that
   yields data determines the value. amendedTierFormula differs only in the
   case where the tier-1 query raises, which the code answers with the fixed
   default without consulting later tiers. -/

def claimTierFormula (env : EventsEnv) : ℚ :=
  match env.trailEvents with
  | MetricResult.returns (d :: ds) =>
    ((d :: ds).sum / (((d :: ds).length : ℚ))) * 30
  | _ =>
    match env.apiCallCount with
    | MetricResult.returns (d :: ds) =>
      ((d :: ds).sum / (((d :: ds).length : ℚ))) * 30 * 0.15
    | _ => eventsTier3 env

def amendedTierFormula (env : EventsEnv) : ℚ :=
  match env.trailEvents with
  | MetricResult.raises => 1000000
  | MetricResult.returns _ => claimTierFormula env

/- Concrete inputs used to exhibit counterexamples and to instantiate the
   conditional theorems below. -/

def acctRootId : String := "111"

def acctOtherId : String := "222"

def stsRootOnly : StsEnv := ⟨acctRootId, fun _ _ => false⟩

def stsCtOnly : StsEnv :=
  ⟨acctRootId, fun role _ => decide (role = controlTowerRoleName)⟩

def envTier2Only : EventsEnv :=
  ⟨MetricResult.raises, MetricResult.returns [7], some (0, 0, 0)⟩

def eventsEnvTrivial : EventsEnv := ⟨MetricResult.raises, MetricResult.raises, none⟩

def egEnvTier2 : EgressEnv := ⟨MetricResult.returns [], eventsEnvTrivial⟩

def renvTrivial : RegionEnv :=
  ⟨eventsEnvTrivial, ⟨MetricResult.raises, eventsEnvTrivial⟩, ⟨none⟩, ⟨none⟩⟩

def envProbeEmpty : ScopeEnv := ⟨none, fun _ => false⟩

def aenvTrivial : AccountEnv := ⟨envProbeEmpty, fun _ => renvTrivial⟩

def acctRec1 : AccountRec := ⟨acctRootId, "root", "ACTIVE"⟩

def acctRec2 : AccountRec := ⟨acctOtherId, "member", "ACTIVE"⟩

def cfgBasic : Config := ⟨false, false, false, [usEast1Chars], [usEast1Chars]⟩

def cfgSnap : Config := ⟨false, false, true, [usEast1Chars], [usEast1Chars]⟩

def mDefault14 : UsageMetrics := ⟨1000000, 5, 0, 0, 20, 14⟩

/- Theorems. -/

/-- Helper: a region string cannot start with both the sa- class marker and
one of the ap- or me- class markers. -/
theorem startsWithL_sa_excl : ∀ (region : List Char),
    startsWithL region saChars = true →
    startsWithL region apChars = false ∧ startsWithL region meChars = false := by
  intro region h
  cases region with
  | nil => exact absurd h (by decide)
  | cons c t =>
    have hc : c = 's' := by
      simp only [saChars, startsWithL, Bool.and_eq_true, beq_iff_eq] at h
      exact h.1
    subst hc
    have ha : ('s' == 'a') = false := by decide
    have hm : ('s' == 'm') = false := by decide
    constructor
    · simp only [apChars, startsWithL, ha, Bool.false_and]
    · simp only [meChars, startsWithL, hm, Bool.false_and]

/-- Claim C4: for every region identifier string and egress volume, the
data-egress cost equals the volume times a rate determined solely by the
region prefix: 0.12 for sa-, 0.11 for ap- or me-, and 0.09 otherwise. -/
theorem c4_egress_rate_by_region (region : List Char) (m : UsageMetrics) :
    data_egress_cost region m
      = m.monthly_egress_gb *
        (if startsWithL region saChars = true then 0.12
         else if startsWithL region apChars = true ∨ startsWithL region meChars = true
           then 0.11
         else 0.09) := by
  unfold data_egress_cost egress_rate
  cases hsa : startsWithL region saChars with
  | true =>
    obtain ⟨hap, hme⟩ := startsWithL_sa_excl region hsa
    simp [hsa, hap, hme]
  | false =>
    cases hap : startsWithL region apChars with
    | true => simp [hsa, hap]
    | false =>
      cases hme : startsWithL region meChars with
      | true => simp [hsa, hap, hme]
      | false => simp [hsa, hap, hme]

/-- Claim C5: the total cost is the exact sum of the unrounded components
(event delivery, egress, fixed overhead 0.10, trail cost 0, storage scan,
compute scan); rounding to two decimals and integer truncation happen only
when the result row is rendered. -/
theorem c5_total_is_exact_sum (cfg : Config) (sts : StsEnv) (acct : AccountRec)
    (region : List Char) (m : UsageMetrics) (renv : RegionEnv) :
    total_cost cfg region m
        = eventbridge_cost m + data_egress_cost region m + lambda_cost
          + cloudtrail_cost + dspm_cost cfg m + snapshot_cost cfg m
      ∧ lambda_cost = 0.10 ∧ cloudtrail_cost = 0
      ∧ (mkResultRow cfg acct region m).totalCost = round2 (total_cost cfg region m)
      ∧ (mkResultRow cfg acct region m).eventbridgeCost = round2 (eventbridge_cost m)
      ∧ (mkResultRow cfg acct region m).dataEgressCost = round2 (data_egress_cost region m)
      ∧ (mkResultRow cfg acct region m).dspmCost = round2 (dspm_cost cfg m)
      ∧ (mkResultRow cfg acct region m).snapshotCost = round2 (snapshot_cost cfg m)
      ∧ (mkResultRow cfg acct region m).monthlyEvents = pyInt m.monthly_events
      ∧ (mkResultRow cfg acct region m).monthlyEgressGb = round2 m.monthly_egress_gb
      ∧ processRegion cfg sts acct region renv
          = mkResultRow cfg acct region (gatherMetrics cfg sts acct.id region renv) :=
  ⟨rfl, rfl, rfl, rfl, rfl, rfl, rfl, rfl, rfl, rfl, rfl⟩

/-- Claim C6: the credential broker returns the root scope for the root
account with no assumption attempt; otherwise it tries the primary role,
then the two alternatives in order, stopping at the first success, and
returns the auth failure only when every attempt failed. -/
theorem c6_credential_broker (sts : StsEnv) (accountId : String) :
    (accountId = sts.rootAccount →
      get_account_session sts accountId = some Session.root) ∧
    (accountId ≠ sts.rootAccount →
      ((sts.assumeRole primaryRoleName accountId = true →
         get_account_session sts accountId
           = some (Session.assumed primaryRoleName accountId)) ∧
       (sts.assumeRole primaryRoleName accountId = false →
         sts.assumeRole controlTowerRoleName accountId = true →
         get_account_session sts accountId
           = some (Session.assumed controlTowerRoleName accountId)) ∧
       (sts.assumeRole primaryRoleName accountId = false →
         sts.assumeRole controlTowerRoleName accountId = false →
         sts.assumeRole orgAccessRoleName accountId = true →
         get_account_session sts accountId
           = some (Session.assumed orgAccessRoleName accountId)) ∧
       (sts.assumeRole primaryRoleName accountId = false →
         sts.assumeRole controlTowerRoleName accountId = false →
         sts.assumeRole orgAccessRoleName accountId = false →
         get_account_session sts accountId = none))) := by
  constructor
  · intro h
    simp [get_account_session, h]
  · intro h
    refine ⟨?_, ?_, ?_, ?_⟩
    · intro h1; simp [get_account_session, h, h1]
    · intro h1 h2; simp [get_account_session, h, h1, h2]
    · intro h1 h2 h3; simp [get_account_session, h, h1, h2, h3]
    · intro h1 h2 h3; simp [get_account_session, h, h1, h2, h3]

/-- Witness for claim C6: with a broker environment in which only the second
alternative role can be assumed, a non-root account resolves to that role. -/
theorem c6_credential_broker_witness :
    get_account_session stsCtOnly acctOtherId
      = some (Session.assumed controlTowerRoleName acctOtherId) :=
  ((c6_credential_broker stsCtOnly acctOtherId).2 (by decide)).2.1
    (by decide) (by decide)

/-- Claim C9: the scope resolver returns the caller-provided region list when
credential resolution fails or when probing yields zero enabled regions, and
returns exactly the catalog regions not marked not-opted-in when the single
describe-all-regions call succeeds. -/
theorem c9_scope_resolver (cfg : Config) (sts : StsEnv) (accountId : String)
    (env : ScopeEnv) :
    (get_account_session sts accountId = none →
      get_enabled_regions_for_account cfg sts accountId env = cfg.regions) ∧
    (∀ s, get_account_session sts accountId = some s →
      env.describeAllRegions = none →
      cfg.all_available_regions.filter env.probeOk = [] →
      get_enabled_regions_for_account cfg sts accountId env = cfg.regions) ∧
    (∀ s entries, get_account_session sts accountId = some s →
      env.describeAllRegions = some entries →
      get_enabled_regions_for_account cfg sts accountId env
        = (entries.filter (fun e => decide (e.optInStatus ≠ some notOptedIn))).map
            (fun e => e.regionName)) := by
  refine ⟨?_, ?_, ?_⟩
  · intro h; simp [get_enabled_regions_for_account, h]
  · intro s h hd hp; simp [get_enabled_regions_for_account, h, hd, hp]
  · intro s entries h hd; simp [get_enabled_regions_for_account, h, hd]

/-- Witness for claim C9: with a root session, a raising describe-regions
call and a probe that never succeeds, the resolver falls back to the
caller-provided region list. -/
theorem c9_scope_resolver_witness :
    get_enabled_regions_for_account cfgBasic stsRootOnly acctRootId envProbeEmpty
      = cfgBasic.regions :=
  (c9_scope_resolver cfgBasic stsRootOnly acctRootId envProbeEmpty).2.1
    Session.root (by decide) (by decide) (by decide)

/-- Claim C8: the compute-scan cost equals the batch-compute term plus the
snapshot-storage term when the feature is enabled and the Linux count is
positive, and zero otherwise; at the default inventory of 14 Linux instances
the two terms are 2.38 and 7 thirds. -/
theorem c8_compute_scan_cost (cfg : Config) (m : UsageMetrics) :
    (cfg.include_snapshot = true → 0 < m.ec2_linux →
      snapshot_cost cfg m
        = (m.ec2_linux : ℚ) * 0.5 * 0.085 * 4
          + (m.ec2_linux : ℚ) * 100 * 0.05 * (1 / 30)) ∧
    (cfg.include_snapshot = false ∨ m.ec2_linux ≤ 0 → snapshot_cost cfg m = 0) ∧
    (cfg.include_snapshot = true → m.ec2_linux = 14 →
      snapshot_cost cfg m = 2.38 + 14 * 100 * 0.05 * (1 / 30)
        ∧ (14 : ℚ) * 0.5 * 0.085 * 4 = 2.38
        ∧ (14 : ℚ) * 100 * 0.05 * (1 / 30) = 7 / 3) := by
  unfold snapshot_cost
  refine ⟨?_, ?_, ?_⟩
  · intro h1 h2
    rw [if_pos ⟨h1, h2⟩]
  · intro h
    rcases h with h | h
    · rw [if_neg]
      rintro ⟨h1, -⟩
      rw [h] at h1
      cases h1
    · rw [if_neg]
      rintro ⟨-, h2⟩
      omega
  · intro h1 h2
    rw [if_pos ⟨h1, by omega⟩, h2]
    norm_num

/-- Witness for claim C8: with the compute-scan flag on and the default
14-Linux inventory, the cost is 2.38 plus the storage term. -/
theorem c8_compute_scan_cost_witness :
    snapshot_cost cfgSnap mDefault14 = 2.38 + 14 * 100 * 0.05 * (1 / 30) :=
  ((c8_compute_scan_cost cfgSnap mDefault14).2.2 rfl rfl).1

/-- Counterexample for claim C1 as stated: with a resolved session, a raising
tier-1 query and a tier-2 metric that returns the single datapoint 7, the
code returns the fixed default 1,000,000 whereas the first tier that yields
data (tier 2) has the value 31.5. -/
theorem c1_waterfall_counterexample :
    get_account_session stsRootOnly acctRootId = some Session.root ∧
    estimate_cloudtrail_events stsRootOnly acctRootId envTier2Only = 1000000 ∧
    claimTierFormula envTier2Only = 31.5 ∧
    estimate_cloudtrail_events stsRootOnly acctRootId envTier2Only
      ≠ claimTierFormula envTier2Only := by
  have hsess : get_account_session stsRootOnly acctRootId = some Session.root := by
    decide
  have h2 : estimate_cloudtrail_events stsRootOnly acctRootId envTier2Only
      = 1000000 := by
    unfold estimate_cloudtrail_events
    rw [hsess]
    rfl
  have h3 : claimTierFormula envTier2Only = 31.5 := by
    simp [claimTierFormula, envTier2Only, eventsTier3]
    norm_num
  refine ⟨hsess, h2, h3, ?_⟩
  rw [h2, h3]
  norm_num

/-- Claim C1 (amended): with a resolved session, the event estimate is the
fixed default 1,000,000 whenever the tier-1 query raises, and otherwise the
formula of the first tier that yields data, independent of all later
tiers. -/
theorem c1_event_waterfall_amended (sts : StsEnv) (accountId : String)
    (env : EventsEnv) (s : Session)
    (h : get_account_session sts accountId = some s) :
    estimate_cloudtrail_events sts accountId env = amendedTierFormula env := by
  unfold estimate_cloudtrail_events amendedTierFormula claimTierFormula
  rw [h]
  cases ht : env.trailEvents with
  | raises => rfl
  | returns dps =>
    cases dps with
    | nil =>
      cases ha : env.apiCallCount with
      | raises => simp
      | returns dps2 =>
        cases dps2 with
        | nil => simp
        | cons d ds =>
          have hpos : (d :: ds).length > 0 := Nat.succ_pos _
          simp [hpos]
    | cons d ds =>
      have hpos : (d :: ds).length > 0 := Nat.succ_pos _
      simp [hpos]

/-- Witness for claim C1 (amended): a concrete resolved session on which the
amended waterfall description matches the code. -/
theorem c1_event_waterfall_amended_witness :
    get_account_session stsRootOnly acctRootId = some Session.root ∧
    estimate_cloudtrail_events stsRootOnly acctRootId envTier2Only
      = amendedTierFormula envTier2Only :=
  ⟨by decide,
   c1_event_waterfall_amended stsRootOnly acctRootId envTier2Only Session.root
     (by decide)⟩

/-- Claim C2: when credential resolution for the account fails, every usage
estimator returns its fixed default immediately and independently of any
remote-call outcome, and one result row per in-scope region is still
produced. -/
theorem c2_access_failed_defaults (cfg : Config) (sts : StsEnv)
    (acct : AccountRec) (region : List Char) (renv : RegionEnv)
    (aenv : AccountEnv) (h : get_account_session sts acct.id = none) :
    estimate_cloudtrail_events sts acct.id renv.events = 1000000 ∧
    estimate_data_transfer sts acct.id renv.egress = 5 ∧
    (cfg.include_dspm = true →
      estimate_s3_buckets cfg.include_dspm sts acct.id region renv.s3
        = ⟨10, 500, 50⟩) ∧
    (cfg.include_snapshot = true →
      estimate_ec2_instances cfg.include_snapshot sts acct.id renv.ec2
        = ⟨20, 14, 5, 1⟩) ∧
    (∀ r, r ∈ resolvedRegions cfg sts acct aenv →
      ∃ row, row ∈ calculate_costs cfg sts acct aenv
        ∧ row.accountId = acct.id ∧ row.region = r) := by
  refine ⟨?_, ?_, ?_, ?_, ?_⟩
  · unfold estimate_cloudtrail_events
    rw [h]
  · unfold estimate_data_transfer
    rw [h]
  · intro hd
    simp [estimate_s3_buckets, hd, h]
  · intro hs
    simp [estimate_ec2_instances, hs, h]
  · intro r hr
    refine ⟨processRegion cfg sts acct r (aenv.perRegion r), ?_, rfl, rfl⟩
    exact List.mem_map_of_mem _ hr

/-- Witness for claim C2: a concrete account for which every role assumption
fails, with the event and egress defaults evaluated. -/
theorem c2_access_failed_defaults_witness :
    get_account_session stsRootOnly acctRec2.id = none ∧
    estimate_cloudtrail_events stsRootOnly acctRec2.id renvTrivial.events
      = 1000000 ∧
    estimate_data_transfer stsRootOnly acctRec2.id renvTrivial.egress = 5 :=
  ⟨by decide,
   (c2_access_failed_defaults cfgBasic stsRootOnly acctRec2 usEast1Chars
     renvTrivial aenvTrivial (by decide)).1,
   (c2_access_failed_defaults cfgBasic stsRootOnly acctRec2 usEast1Chars
     renvTrivial aenvTrivial (by decide)).2.1⟩

/-- Claim C7: with a resolved session, a bytes-delivered query that returns
no datapoints yields the event-volume estimate times 1.5 KB per event
converted to GB; the fixed 5 GB default arises only from a failed access
scope or a raising metric query, and a non-empty tier-1 result yields the
measured formula. -/
theorem c7_egress_tiering (sts : StsEnv) (accountId : String)
    (env : EgressEnv) :
    (get_account_session sts accountId = none →
      estimate_data_transfer sts accountId env = 5) ∧
    (∀ s, get_account_session sts accountId = some s →
      env.bytesDelivered = MetricResult.raises →
      estimate_data_transfer sts accountId env = 5) ∧
    (∀ s, get_account_session sts accountId = some s →
      env.bytesDelivered = MetricResult.returns [] →
      estimate_data_transfer sts accountId env
        = (estimate_cloudtrail_events sts accountId env.eventsEnv * 1.5 * 1024)
          / (1024 * 1024 * 1024)) ∧
    (∀ s d ds, get_account_session sts accountId = some s →
      env.bytesDelivered = MetricResult.returns (d :: ds) →
      estimate_data_transfer sts accountId env
        = ((d :: ds).sum / (((d :: ds).length : ℚ)) * 30)
          / (1024 * 1024 * 1024)) := by
  refine ⟨?_, ?_, ?_, ?_⟩
  · intro h
    unfold estimate_data_transfer
    rw [h]
  · intro s h hb
    unfold estimate_data_transfer
    rw [h, hb]
  · intro s h hb
    unfold estimate_data_transfer
    rw [h, hb]
    simp
  · intro s d ds h hb
    unfold estimate_data_transfer
    rw [h, hb]
    have hpos : (d :: ds).length > 0 := Nat.succ_pos _
    simp [hpos]

/-- Witness for claim C7: with a root session and an empty bytes-delivered
result, the egress estimate is the event estimate converted to GB. -/
theorem c7_egress_tiering_witness :
    estimate_data_transfer stsRootOnly acctRootId egEnvTier2
      = (estimate_cloudtrail_events stsRootOnly acctRootId egEnvTier2.eventsEnv
          * 1.5 * 1024) / (1024 * 1024 * 1024) :=
  (c7_egress_tiering stsRootOnly acctRootId egEnvTier2).2.2.1
    Session.root (by decide) (by decide)

/-- Helper: every enumerated instance is classified as exactly one of Linux
or Windows, so the two class counts partition the instance list. -/
theorem countP_linux_add_windows (l : List Ec2Instance) :
    l.countP (fun i => decide (classifyInstance i = OsKind.linux))
      + l.countP (fun i => decide (classifyInstance i = OsKind.windows))
      = l.length := by
  induction l with
  | nil => rfl
  | cons i t ih =>
    rw [List.countP_cons, List.countP_cons]
    cases h : classifyInstance i with
    | linux => simp [h]; omega
    | windows => simp [h]; omega

/-- Claim C10: every returned inventory satisfies linux plus windows plus
other equals total; the other count is zero whenever instances were actually
enumerated, and is nonzero only when the fixed default inventory of 20
instances (14 Linux, 5 Windows, 1 Other) was substituted. -/
theorem c10_inventory_partition (flag : Bool) (sts : StsEnv)
    (accountId : String) (env : Ec2Env) :
    ((estimate_ec2_instances flag sts accountId env).linux
        + (estimate_ec2_instances flag sts accountId env).windows
        + (estimate_ec2_instances flag sts accountId env).other
      = (estimate_ec2_instances flag sts accountId env).total) ∧
    (∀ s insts, get_account_session sts accountId = some s →
      env.instancesResult = some insts →
      (estimate_ec2_instances flag sts accountId env).other = 0) ∧
    ((estimate_ec2_instances flag sts accountId env).other ≠ 0 →
      estimate_ec2_instances flag sts accountId env = ⟨20, 14, 5, 1⟩) := by
  refine ⟨?_, ?_, ?_⟩
  · cases flag with
    | false => simp [estimate_ec2_instances]
    | true =>
      cases hs : get_account_session sts accountId with
      | none => simp [estimate_ec2_instances, hs]
      | some s =>
        cases he : env.instancesResult with
        | none => simp [estimate_ec2_instances, hs, he]
        | some insts =>
          simp [estimate_ec2_instances, hs, he]
  · intro s insts hs he
    cases flag with
    | false => simp [estimate_ec2_instances]
    | true =>
      have hc := countP_linux_add_windows insts
      simp [estimate_ec2_instances, hs, he]
      omega
  · cases flag with
    | false => simp [estimate_ec2_instances]
    | true =>
      cases hs : get_account_session sts accountId with
      | none => intro _; simp [estimate_ec2_instances, hs]
      | some s =>
        cases he : env.instancesResult with
        | none => intro _; simp [estimate_ec2_instances, hs, he]
        | some insts =>
          intro hother
          exfalso
          apply hother
          have hc := countP_linux_add_windows insts
          simp [estimate_ec2_instances, hs, he]
          omega

/-- Witness for claim C10: enumerating an empty instance list under a root
session produces an inventory with a zero other count. -/
theorem c10_inventory_partition_witness :
    (estimate_ec2_instances true stsRootOnly acctRootId ⟨some []⟩).other = 0 :=
  (c10_inventory_partition true stsRootOnly acctRootId ⟨some []⟩).2.1
    Session.root [] (by decide) rfl

/-- Helper: the run over a cons account list splits into the rows of the head
account followed by the rows of the rest. -/
theorem runEstimator_cons (cfg : Config) (sts : StsEnv) (a : AccountRec)
    (accts : List AccountRec) (env : AccountRec → AccountEnv) :
    runEstimator cfg sts (a :: accts) env
      = calculate_costs cfg sts a (env a) ++ runEstimator cfg sts accts env := by
  simp [runEstimator]

/-- Helper: the number of rows of one account that carry a given key is the
number of occurrences of the region in the resolved scope when the account id
matches, and zero otherwise. -/
theorem countP_calculate_costs (cfg : Config) (sts : StsEnv) (acct : AccountRec)
    (aenv : AccountEnv) (aId : String) (r : List Char) :
    (calculate_costs cfg sts acct aenv).countP (rowKey aId r)
      = if acct.id = aId then
          (resolvedRegions cfg sts acct aenv).countP (fun x => decide (x = r))
        else 0 := by
  unfold calculate_costs
  rw [List.countP_map]
  by_cases hid : acct.id = aId
  · rw [if_pos hid]
    apply List.countP_congr
    intro x hx
    simp [rowKey, Function.comp, processRegion, mkResultRow, hid]
  · rw [if_neg hid]
    rw [List.countP_eq_zero]
    intro x hx
    simp [rowKey, Function.comp, processRegion, mkResultRow, hid]

/-- Helper: in a duplicate-free list, an element that occurs has count one. -/
theorem countP_nodup_one {α : Type} [DecidableEq α] (r : α) :
    ∀ (l : List α), l.Nodup → r ∈ l →
      l.countP (fun x => decide (x = r)) = 1 := by
  intro l
  induction l with
  | nil => intro _ hm; cases hm
  | cons a t ih =>
    intro hn hm
    have hher := List.nodup_cons.mp hn
    rw [List.countP_cons]
    rcases List.mem_cons.mp hm with h | h
    · subst h
      have h0 : t.countP (fun x => decide (x = r)) = 0 := by
        rw [List.countP_eq_zero]
        intro x hx
        simp only [decide_eq_true_eq]
        rintro rfl
        exact hher.1 hx
      simp [h0]
    · have hne : a ≠ r := by
        rintro rfl
        exact hher.1 h
      have h1 := ih hher.2 h
      simp [h1, hne]

/-- Helper: accounts whose id differs from the key contribute no row with
that key. -/
theorem countP_run_zero (cfg : Config) (sts : StsEnv)
    (env : AccountRec → AccountEnv) :
    ∀ (accts : List AccountRec) (aId : String) (r : List Char),
      (∀ b, b ∈ accts → b.id ≠ aId) →
      (runEstimator cfg sts accts env).countP (rowKey aId r) = 0 := by
  intro accts
  induction accts with
  | nil => intro aId r _; rfl
  | cons b bs ih =>
    intro aId r h
    rw [runEstimator_cons, List.countP_append, countP_calculate_costs,
      if_neg (h b (List.mem_cons_self b bs)),
      ih aId r (fun c hc => h c (List.mem_cons_of_mem b hc))]

/-- Helper: with pairwise-distinct account ids and a duplicate-free resolved
scope, each in-scope pair keys exactly one row of the run. -/
theorem countP_run_one (cfg : Config) (sts : StsEnv)
    (env : AccountRec → AccountEnv) :
    ∀ (accts : List AccountRec),
      (accts.map (fun a => a.id)).Nodup →
      ∀ a, a ∈ accts →
      ∀ r, r ∈ resolvedRegions cfg sts a (env a) →
      (resolvedRegions cfg sts a (env a)).Nodup →
      (runEstimator cfg sts accts env).countP (rowKey a.id r) = 1 := by
  intro accts
  induction accts with
  | nil => intro _ a ha; cases ha
  | cons b bs ih =>
    intro hn a ha r hr hrn
    rw [List.map_cons] at hn
    have hn2 := List.nodup_cons.mp hn
    rw [runEstimator_cons, List.countP_append, countP_calculate_costs]
    rcases List.mem_cons.mp ha with h | h
    · subst h
      rw [if_pos rfl, countP_nodup_one r _ hrn hr]
      have h0 : (runEstimator cfg sts bs env).countP (rowKey a.id r) = 0 := by
        apply countP_run_zero
        intro c hc heq
        exact hn2.1 (List.mem_map.mpr ⟨c, hc, heq⟩)
      rw [h0]
    · have hbne : b.id ≠ a.id := by
        intro he
        exact hn2.1 (List.mem_map.mpr ⟨a, h, he.symm⟩)
      rw [if_neg hbne, ih hn2.2 a h r hr hrn]

/-- Helper: a row belongs to the run exactly when it is the row of some
listed account and some region in that accounts resolved scope. -/
theorem mem_runEstimator (cfg : Config) (sts : StsEnv)
    (accts : List AccountRec) (env : AccountRec → AccountEnv)
    (row : ResultRow) :
    row ∈ runEstimator cfg sts accts env ↔
      ∃ a, a ∈ accts ∧ ∃ r, r ∈ resolvedRegions cfg sts a (env a) ∧
        row = processRegion cfg sts a r ((env a).perRegion r) := by
  unfold runEstimator calculate_costs
  simp only [List.mem_flatMap, List.mem_map]
  constructor
  · rintro ⟨a, ha, r, hr, heq⟩
    exact ⟨a, ha, r, hr, heq.symm⟩
  · rintro ⟨a, ha, r, hr, heq⟩
    exact ⟨a, ha, r, hr, heq.symm⟩

/-- Claim C3: after a run, the collection holds exactly one result row for
every pair of an active account and a region in that accounts resolved
scope, with no duplicates, no omissions and no extraneous rows, whatever the
per-account or per-tier outcomes were. -/
theorem c3_exactly_one_row_per_pair (cfg : Config) (sts : StsEnv)
    (orgAccts : List AccountRec) (env : AccountRec → AccountEnv)
    (hids : ((activeAccounts orgAccts).map (fun a => a.id)).Nodup)
    (hreg : ∀ a, a ∈ activeAccounts orgAccts →
      (resolvedRegions cfg sts a (env a)).Nodup) :
    (∀ a, a ∈ activeAccounts orgAccts →
      ∀ r, r ∈ resolvedRegions cfg sts a (env a) →
        (runEstimator cfg sts (activeAccounts orgAccts) env).countP
          (rowKey a.id r) = 1) ∧
    (∀ row, row ∈ runEstimator cfg sts (activeAccounts orgAccts) env →
      ∃ a, a ∈ activeAccounts orgAccts ∧ row.accountId = a.id ∧
        row.region ∈ resolvedRegions cfg sts a (env a)) := by
  constructor
  · intro a ha r hr
    exact countP_run_one cfg sts env _ hids a ha r hr (hreg a ha)
  · intro row hrow
    rcases (mem_runEstimator cfg sts _ env row).mp hrow with ⟨a, ha, r, hr, heq⟩
    subst heq
    exact ⟨a, ha, rfl, hr⟩

/-- Witness for claim C3: a one-account, one-region run contains exactly one
row with that accounts key. -/
theorem c3_exactly_one_row_per_pair_witness :
    (runEstimator cfgBasic stsRootOnly (activeAccounts [acctRec1])
      (fun _ => aenvTrivial)).countP (rowKey acctRec1.id usEast1Chars) = 1 :=
  (c3_exactly_one_row_per_pair cfgBasic stsRootOnly [acctRec1]
      (fun _ => aenvTrivial) (by decide) (by decide)).1
    acctRec1 (by decide) usEast1Chars (by decide)
